import Mathlib

/-
Verification of the go-automapper mapping engine.

The repository maps values between Go struct types by reflection.  The source
file contains three successive revisions of the package; the claims concern
the third revision (entry points MapToDestination, MapFromSource,
MapFromSourceMap, with automapper rename/skip tags), embedded below in
namespace R3, and the second revision (entry points Map, MapLoose and the
loose flag), embedded in namespace R2.

The embedding models the fragment of Go reflection the package uses:

  GoType       reflect.Type over the kinds the mapper dispatches on
               (string, int, pointer, struct, slice).  Struct types carry
               their field list: name, automapper tag, anonymous flag and
               field type.  Type identity is structural, which coincides
               with Go type identity for the anonymous struct types the
               package is exercised with (Go includes field names and tags
               in the identity of unnamed struct types).
  Val          a reflect.Value known to be valid: a value carrying its type.
  Value        Option Val; none is the zero reflect.Value{}.

Mutation of the destination is modelled by returning the updated value;
panics are modelled by Except MapError.  The recover/re-panic wrappers in
mapDestField/mapSourceField become the fieldError wrapper.  General
recursion (the Go code recurses without bound on cyclic types) is modelled
with a fuel parameter consumed once per mapValues call; outOfFuel is the
model artifact for exhausted fuel.

reflect semantics modelled faithfully: FieldByName resolves promoted fields
breadth-first through anonymous (embedded) fields, one depth level at a
time, and fails on ambiguity at the shallowest matching depth; FieldByIndex
dereferences intermediate pointers to struct and panics when one is nil;
Type/FieldByName/Len/Field on a zero Value or a Value of the wrong kind
panic.  Not modelled (unreached by every claim): byte-level indexing of a
string source in mapSlice, and conversions between distinct pointer types.
-/

/-- Per-field metadata of a Go struct type: declared name, optional
automapper tag, and the embedded/anonymous flag. -/
structure FieldMeta where
  name : String
  tag : Option String
  anonymous : Bool
deriving DecidableEq, Repr

/-- The Go types the mapper dispatches on. A struct type carries its field
declarations in order. -/
inductive GoType where
  | stringT
  | intT
  | ptrT (elem : GoType)
  | structT (fields : List (FieldMeta × GoType))
  | sliceT (elem : GoType)
deriving Repr

/-- A valid reflect.Value: a runtime value carrying its type.  Struct values
carry the declaring field list and the field values positionally; pointer
and slice values carry their element type so that typed nil pointers and
empty slices keep their type. -/
inductive Val where
  | strV (s : String)
  | intV (n : Int)
  | ptrV (elem : GoType) (v : Option Val)
  | structV (fields : List (FieldMeta × GoType)) (vals : List Val)
  | sliceV (elem : GoType) (elems : List Val)
deriving Repr

/-- A reflect.Value that may be the invalid zero Value (none). -/
abbrev Value := Option Val

mutual

/-- Structural type identity, mirroring Go type identity of unnamed types
(field names, tags and the anonymous flag all participate). -/
def GoType.beq : GoType → GoType → Bool
  | .stringT, .stringT => true
  | .intT, .intT => true
  | .ptrT a, .ptrT b => GoType.beq a b
  | .structT fs, .structT gs => beqFields fs gs
  | .sliceT a, .sliceT b => GoType.beq a b
  | _, _ => false

/-- Pointwise identity of struct field lists. -/
def beqFields : List (FieldMeta × GoType) → List (FieldMeta × GoType) → Bool
  | [], [] => true
  | (m, t) :: fs, (n, u) :: gs => m == n && GoType.beq t u && beqFields fs gs
  | _, _ => false

end

/-- The type of a value (reflect.Value.Type on a valid Value). -/
def typeOf : Val → GoType
  | .strV _ => .stringT
  | .intV _ => .intT
  | .ptrV e _ => .ptrT e
  | .structV fs _ => .structT fs
  | .sliceV e _ => .sliceT e

mutual

/-- The zero value of a type (reflect.New(t).Elem()). -/
def zeroVal : GoType → Val
  | .stringT => .strV ""
  | .intT => .intV 0
  | .ptrT e => .ptrV e none
  | .sliceT e => .sliceV e []
  | .structT fs => .structV fs (zeroFields fs)

/-- Zero values of a struct field list, in declaration order. -/
def zeroFields : List (FieldMeta × GoType) → List Val
  | [] => []
  | (_, t) :: rest => zeroVal t :: zeroFields rest

end

/-- The errors (panics) the mapper can signal.  zeroValue models every
reflect panic on the invalid zero Value (notably reflect.Value.Type, which
is how an unresolved field surfaces in the third revision);
noMatchingDestField is the explicit panic of the second revision's
mapSourceField; kindPanic models reflect panics from calling a method on a
Value of the wrong kind; typeIncompatible is the Convert panic; outOfFuel
is the artifact of the fuel parameter; fieldError is the recover/re-panic
wrapper that prefixes the offending field name. -/
inductive MapError where
  | destNotAddressable
  | zeroValue
  | typeIncompatible
  | noMatchingDestField
  | kindPanic
  | outOfFuel
  | fieldError (field : String) (inner : MapError)
deriving DecidableEq, Repr

/-- The innermost error under the recover/re-panic wrappers. -/
def MapError.rootCause : MapError → MapError
  | .fieldError _ inner => inner.rootCause
  | e => e

/-- Whether an error is the FieldResolution signal of the design: either the
zero-Value panic raised when a field fails to resolve, or the explicit
no-matching-field panic of the second revision, possibly under wrappers. -/
def MapError.isFieldResolution : MapError → Bool
  | .zeroValue => true
  | .noMatchingDestField => true
  | .fieldError _ inner => inner.isFieldResolution
  | _ => false

/-- Whether an error is the TypeIncompatible signal, possibly wrapped. -/
def MapError.isTypeIncompatible : MapError → Bool
  | .typeIncompatible => true
  | .fieldError _ inner => inner.isTypeIncompatible
  | _ => false

/-- The recover/re-panic wrapper of mapDestField and mapSourceField: any
panic from the body is re-raised with the offending field name attached. -/
def wrapField (name : String) (r : Except MapError Val) : Except MapError Val :=
  match r with
  | .error e => .error (.fieldError name e)
  | .ok v => .ok v

/-- The struct field list a promoted-field search descends into: a struct
field or a pointer-to-struct field (Go promotes through both). -/
def embeddedFields : GoType → Option (List (FieldMeta × GoType))
  | .structT fs => some fs
  | .ptrT (.structT fs) => some fs
  | _ => none

/-- Indices of the fields of fs declared with the given name, offset by
base, in declaration order. -/
def directIdxs (name : String) : List (FieldMeta × GoType) → Nat → List Nat
  | [], _ => []
  | (m, _) :: rest, base =>
      (if m.name = name then [base] else []) ++ directIdxs name rest (base + 1)

/-- One level of the promoted-field search: descend one anonymous hop into
each embedded struct or pointer-to-struct field, extending the paths the
given continuation finds inside it. -/
def anonPathsWith (rec0 : List (FieldMeta × GoType) → List (List Nat)) :
    List (FieldMeta × GoType) → Nat → List (List Nat)
  | [], _ => []
  | (m, t) :: rest, base =>
      (if m.anonymous then
        match embeddedFields t with
        | some gs => (rec0 gs).map (fun p => base :: p)
        | none => []
       else []) ++ anonPathsWith rec0 rest (base + 1)

/-- Index paths of fields with the given name reachable in exactly d hops
through anonymous fields (Go FieldByName searches depth by depth). -/
def pathsAt (name : String) : Nat → List (FieldMeta × GoType) → List (List Nat)
  | 0, fs => (directIdxs name fs 0).map (fun i => [i])
  | d + 1, fs => anonPathsWith (fun gs => pathsAt name d gs) fs 0

mutual

/-- A computable structural size of a type, used only to bound the depth of
the promoted-field search. -/
def GoType.tsize : GoType → Nat
  | .stringT => 1
  | .intT => 1
  | .ptrT e => GoType.tsize e + 1
  | .sliceT e => GoType.tsize e + 1
  | .structT fs => fieldsSize fs + 1

/-- Structural size of a field list. -/
def fieldsSize : List (FieldMeta × GoType) → Nat
  | [] => 1
  | (_, t) :: rest => GoType.tsize t + fieldsSize rest + 1

end

/-- Go Type.FieldByName: scan depth levels upward with the given budget; at
the first depth with any match, succeed only when the match is unique. -/
def fieldPathFrom (fs : List (FieldMeta × GoType)) (name : String) : Nat → Nat → Option (List Nat)
  | 0, _ => none
  | b + 1, d =>
    match pathsAt name d fs with
    | [] => fieldPathFrom fs name b (d + 1)
    | [p] => some p
    | _ => none

/-- The index path of the field a Go FieldByName lookup resolves, if any.
The depth budget fieldsSize fs exceeds every possible anonymous nesting
depth of the (finite, acyclic) type. -/
def fieldPath (fs : List (FieldMeta × GoType)) (name : String) : Option (List Nat) :=
  fieldPathFrom fs name (fieldsSize fs + 1) 0

/-- reflect.Value.Field(i) on a struct value; panics otherwise. -/
def fieldAt (v : Val) (i : Nat) : Except MapError Val :=
  match v with
  | .structV _ vals =>
    match vals[i]? with
    | some x => .ok x
    | none => .error .kindPanic
  | _ => .error .kindPanic

/-- The implicit dereference FieldByIndex performs between steps: a pointer
to struct is dereferenced, panicking when nil; other values pass through. -/
def stepDeref (v : Val) : Except MapError Val :=
  match v with
  | .ptrV (.structT _) inner =>
    match inner with
    | none => .error .kindPanic
    | some w => .ok w
  | v => .ok v

/-- reflect.Value.FieldByIndex: walk an index path, dereferencing
intermediate pointers to struct and panicking on a nil one. -/
def getByPath (v : Val) : List Nat → Except MapError Val
  | [] => .ok v
  | i :: rest => do
      let x ← fieldAt v i
      match rest with
      | [] => .ok x
      | _ => do
          let x2 ← stepDeref x
          getByPath x2 rest

/-- Functional update along an index path: the model of an assignment to the
addressable field FieldByIndex reaches.  Intermediate pointers to struct
are followed (nil panics), mirroring getByPath. -/
def setByPath (v : Val) (p : List Nat) (nv : Val) : Except MapError Val :=
  match p, v with
  | [], _ => .ok nv
  | i :: rest, .structV fs vals =>
    match vals[i]? with
    | none => .error .kindPanic
    | some x =>
      match rest with
      | [] => .ok (.structV fs (vals.set i nv))
      | _ =>
        match x with
        | .ptrV (.structT gs) (some w) => do
            let w2 ← setByPath w rest nv
            .ok (.structV fs (vals.set i (.ptrV (.structT gs) (some w2))))
        | .ptrV (.structT _) none => .error .kindPanic
        | x => do
            let x2 ← setByPath x rest nv
            .ok (.structV fs (vals.set i x2))
  | _ :: _, _ => .error .kindPanic

/-- reflect.Value.FieldByName on a struct value: the zero Value when the
name does not resolve, the (possibly promoted) field value when it does,
and a panic when promotion crosses a nil embedded pointer or the receiver
is not a struct. -/
def fieldByNameV (v : Val) (name : String) : Except MapError Value :=
  match v with
  | .structV fs vals =>
    match fieldPath fs name with
    | none => .ok none
    | some p => do
        let fv ← getByPath (.structV fs vals) p
        .ok (some fv)
  | _ => .error .kindPanic

/-- The one-level fallback loop shared by both revisions: scan the source's
field values in declaration order, skip those that are not of struct kind,
and return the first successful FieldByName lookup inside one of them. -/
def oneLevelSearch (svals : List Val) (name : String) : Except MapError Value :=
  match svals with
  | [] => .ok none
  | v :: rest =>
    match v with
    | .structV gs gvals => do
        let f ← fieldByNameV (.structV gs gvals) name
        match f with
        | some fv => .ok (some fv)
        | none => oneLevelSearch rest name
    | _ => oneLevelSearch rest name

/-- Embedding of valueIsNil: kind is pointer and the pointer is nil. -/
def valueIsNil : Val → Bool
  | .ptrV _ none => true
  | _ => false

/-- Embedding of valueIsContainedInNilEmbeddedType: the named field lives
under an embedded field (index path longer than one) whose parent is a nil
pointer. -/
def valueIsContainedInNilEmbeddedType (source : Val) (fieldName : String) : Except MapError Bool :=
  match source with
  | .structV fs vals =>
    match fieldPath fs fieldName with
    | none => .ok false
    | some ix =>
      if 1 < ix.length then do
        let parentField ← getByPath (.structV fs vals) ix.dropLast
        .ok (valueIsNil parentField)
      else .ok false
  | _ => .error .kindPanic

/-- reflect.Value.Convert to a different type, over the modelled kinds:
int-to-int and string-to-string conversions are the identity, int-to-string
is Go's code-point conversion (invalid code points become U+FFFD), and
every other pair panics with the incompatibility error. -/
def convert (v : Val) (t : GoType) : Except MapError Val :=
  match v, t with
  | .intV n, .intT => .ok (.intV n)
  | .strV s, .stringT => .ok (.strV s)
  | .intV n, .stringT =>
      .ok (.strV (String.singleton
        (if 0 ≤ n ∧ Nat.isValidChar n.toNat then Char.ofNat n.toNat else Char.ofNat 0xFFFD)))
  | _, _ => .error .typeIncompatible

/-- Whether a type is of pointer kind. -/
def isPtrT : GoType → Bool
  | .ptrT _ => true
  | _ => false

namespace R3

/-- The third revision's option record (lowercase mapOptions in the source). -/
structure mapOptions where
  useSourceMemberList : Bool
deriving DecidableEq, Repr

/-- The type of the recursive mapValues reference threaded through the
helpers; the fuelled mapValues passes itself at the decremented fuel. -/
abbrev Rec := Value → Value → mapOptions → Except MapError Val

/-- Embedding of the third revision's mapByFieldName.  The updated
destination is returned; writes through the destination field resolved by
name are performed with setByPath at the resolved index path. -/
def mapByFieldName (recur : Rec) (source destVal : Val) (opts : mapOptions)
    (sourceFieldName destFieldName : String) : Except MapError Val :=
  match destVal, source with
  | .structV dfs dvals, .structV sfs svals => do
    let destPath := fieldPath dfs destFieldName
    let destField : Value ←
      match destPath with
      | none => pure none
      | some p => do
          let fv ← getByPath (.structV dfs dvals) p
          pure (some fv)
    let finishWith : Value → Except MapError Val := fun sourceField =>
      match destPath with
      | some p => do
          let dfv ← getByPath (.structV dfs dvals) p
          let nv ← recur sourceField (some dfv) opts
          setByPath (.structV dfs dvals) p nv
      | none => do
          let _ ← recur sourceField none opts
          pure (.structV dfs dvals)
    let nilEmb ← valueIsContainedInNilEmbeddedType (.structV sfs svals) sourceFieldName
    if nilEmb then pure (.structV dfs dvals)
    else do
      let sourceField ← fieldByNameV (.structV sfs svals) sourceFieldName
      match sourceField with
      | none =>
          match destField with
          | some (.structV gfs gvals) =>
              match destPath with
              | some p => do
                  let nv ← recur (some (.structV sfs svals)) (some (.structV gfs gvals)) opts
                  setByPath (.structV dfs dvals) p nv
              | none => .error .kindPanic
          | _ => do
              let sf1 ← oneLevelSearch svals sourceFieldName
              finishWith sf1
      | some sf => finishWith (some sf)
  | _, _ => .error .kindPanic

/-- Embedding of the third revision's mapDestField: reads tag and name of
destination field i, skips on "-", renames the source lookup on any other
tag, recurses directly on an anonymous field, and otherwise delegates to
mapByFieldName.  Errors from the body are wrapped with the field name. -/
def mapDestField (recur : Rec) (source destVal : Val) (i : Nat) (opts : mapOptions) :
    Except MapError Val :=
  match destVal with
  | .structV dfs dvals =>
    match dfs[i]? with
    | none => .error .kindPanic
    | some (destTypeField, _) =>
      let destFieldName := destTypeField.name
      let cont : String → Except MapError Val := fun sourceFieldName =>
        wrapField destFieldName (
          match dvals[i]? with
          | none => .error .kindPanic
          | some destField =>
            if destTypeField.anonymous then do
              let nv ← recur (some source) (some destField) opts
              pure (.structV dfs (dvals.set i nv))
            else
              mapByFieldName recur source (.structV dfs dvals) opts sourceFieldName destFieldName)
      match destTypeField.tag with
      | some t => if t = "-" then .ok (.structV dfs dvals) else cont t
      | none => cont destFieldName
  | _ => .error .kindPanic

/-- Embedding of the third revision's mapSourceField: reads tag and name of
source field i, skips on "-", renames the destination lookup on any other
tag, recurses directly on an anonymous field, and otherwise delegates to
mapByFieldName.  Errors from the body are wrapped with the field name. -/
def mapSourceField (recur : Rec) (source destVal : Val) (i : Nat) (opts : mapOptions) :
    Except MapError Val :=
  match source with
  | .structV sfs svals =>
    match sfs[i]? with
    | none => .error .kindPanic
    | some (sourceTypeField, _) =>
      let sourceFieldName := sourceTypeField.name
      let cont : String → Except MapError Val := fun destFieldName =>
        wrapField sourceFieldName (
          match svals[i]? with
          | none => .error .kindPanic
          | some sourceField =>
            if sourceTypeField.anonymous then
              recur (some sourceField) (some destVal) opts
            else
              mapByFieldName recur (.structV sfs svals) destVal opts sourceFieldName destFieldName)
      match sourceTypeField.tag with
      | some t => if t = "-" then .ok destVal else cont t
      | none => cont sourceFieldName
  | _ => .error .kindPanic

/-- Embedding of the third revision's mapFields: iterate the driving side's
fields in declaration order, threading the updated destination. -/
def mapFields (recur : Rec) (sourceVal destVal : Val) (opts : mapOptions) :
    Except MapError Val :=
  match sourceVal, destVal with
  | .structV sfs svals, .structV dfs dvals =>
    if opts.useSourceMemberList then
      (List.range sfs.length).foldlM
        (fun dv i => mapSourceField recur (.structV sfs svals) dv i opts) (.structV dfs dvals)
    else
      (List.range dfs.length).foldlM
        (fun dv i => mapDestField recur (.structV sfs svals) dv i opts) (.structV dfs dvals)
  | _, _ => .error .kindPanic

/-- Embedding of the third revision's verifyArrayTypesAreCompatible: map a
one-element probe slice of zero values into a throwaway pointer to a
destination slice, for its error effect only. -/
def verifyArrayTypesAreCompatible (recur : Rec) (sourceVal destVal : Val) (opts : mapOptions) :
    Except MapError Val :=
  match sourceVal with
  | .sliceV se _ => recur (some (.sliceV se [zeroVal se])) (some (zeroVal (.ptrT (typeOf destVal)))) opts
  | _ => .error .kindPanic

/-- Embedding of the third revision's mapSlice: map element-wise into fresh
zero elements of the destination element type; on an empty source run the
compatibility probe before installing the empty destination slice. -/
def mapSlice (recur : Rec) (sourceVal destVal : Val) (opts : mapOptions) :
    Except MapError Val :=
  match destVal with
  | .sliceV destElem delems =>
    match sourceVal with
    | .sliceV se selems => do
        let target ← selems.mapM (fun sv => recur (some sv) (some (zeroVal destElem)) opts)
        if selems.length = 0 then do
          let _ ← verifyArrayTypesAreCompatible recur (.sliceV se selems) (.sliceV destElem delems) opts
          .ok (.sliceV destElem target)
        else .ok (.sliceV destElem target)
    | _ => .error .kindPanic
  | _ => .error .kindPanic

/-- Embedding of the third revision's mapValues dispatcher, with fuel.  The
decision order mirrors the source: dereference a pointer source into a
struct destination (nil becomes a fresh zero), copy on identical types,
walk fields on struct/struct, allocate-and-recurse into a pointer
destination unless the source is nil, map slices, and otherwise convert. -/
def mapValues : Nat → Value → Value → mapOptions → Except MapError Val
  | 0, _, _, _ => .error .outOfFuel
  | fuel + 1, sourceVal, destVal, opts =>
    match sourceVal, destVal with
    | none, _ => .error .zeroValue
    | some _, none => .error .zeroValue
    | some sv, some dv =>
      match sv, dv with
      | .ptrV e inner, .structV dfs dvals =>
          mapValues fuel (some (inner.getD (zeroVal e))) (some (.structV dfs dvals)) opts
      | sv, dv =>
        if GoType.beq (typeOf sv) (typeOf dv) then .ok sv
        else
          match sv, dv with
          | .structV a b, .structV c d =>
              mapFields (fun x y o => mapValues fuel x y o) (.structV a b) (.structV c d) opts
          | sv, .ptrV e dinner =>
              if valueIsNil sv then .ok (.ptrV e dinner)
              else do
                let inner ← mapValues fuel (some sv) (some (zeroVal e)) opts
                .ok (.ptrV e (some inner))
          | sv, .sliceV de dels =>
              mapSlice (fun x y o => mapValues fuel x y o) sv (.sliceV de dels) opts
          | sv, dv => convert sv (typeOf dv)

/-- Embedding of MapToDestination: destination must be a pointer, then the
dereferenced destination (the invalid zero Value for a nil pointer) is
mapped destination-driven.  The updated pointee is returned. -/
def MapToDestination (fuel : Nat) (source dest : Val) : Except MapError Val :=
  match dest with
  | .ptrV _ inner => mapValues fuel (some source) inner ⟨false⟩
  | _ => .error .destNotAddressable

/-- Embedding of MapFromSource: destination must be a pointer, then the
dereferenced destination is mapped source-driven. -/
def MapFromSource (fuel : Nat) (source dest : Val) : Except MapError Val :=
  match dest with
  | .ptrV _ inner => mapValues fuel (some source) inner ⟨true⟩
  | _ => .error .destNotAddressable

/-- One key/value step of MapFromSourceMap: look the key up on the
destination (the invalid zero Value when absent, making the recursive
mapValues panic) and map the value into that field. -/
def mapFromSourceMapEntry (fuel : Nat) (destVal : Value) (key : String) (value : Val) :
    Except MapError Value :=
  match destVal with
  | none => .error .zeroValue
  | some dv =>
    match dv with
    | .structV dfs dvals =>
      match fieldPath dfs key with
      | none => do
          let _ ← mapValues fuel (some value) none ⟨true⟩
          .ok destVal
      | some p => do
          let destFieldVal ← getByPath (.structV dfs dvals) p
          let nv ← mapValues fuel (some value) (some destFieldVal) ⟨true⟩
          let dv2 ← setByPath (.structV dfs dvals) p nv
          .ok (some dv2)
    | _ => .error .kindPanic

/-- Embedding of MapFromSourceMap: destination must be a pointer; each
key/value pair of the source association is mapped into the destination
field of that name (source-driven context), threading the updated
destination.  Go map iteration order is unspecified; the association list
fixes one order. -/
def MapFromSourceMap (fuel : Nat) (source : List (String × Val)) (dest : Val) :
    Except MapError Value :=
  match dest with
  | .ptrV _ inner =>
      source.foldlM (fun dvv kv => mapFromSourceMapEntry fuel dvv kv.1 kv.2) inner
  | _ => .error .destNotAddressable

end R3

namespace R2

/-- The second revision's exported option record. -/
structure MapOptions where
  UseSourceMemberList : Bool
deriving DecidableEq, Repr

/-- The recursive mapValues reference for the second revision, which
threads the loose and useSourceMemberList flags explicitly. -/
abbrev Rec := Value → Value → Bool → Bool → Except MapError Val

/-- Embedding of the second revision's mapDestField.  No rename tag exists
in this revision: the tag only skips on "-".  The destination field is
addressed by index; when the name is not found on the source, loose mode
returns before the struct-destination and one-level fallbacks. -/
def mapDestField (recur : Rec) (source destVal : Val) (i : Nat)
    (loose useSourceMemberList : Bool) : Except MapError Val :=
  match destVal with
  | .structV dfs dvals =>
    match dfs[i]? with
    | none => .error .kindPanic
    | some (destTypeField, _) =>
      let fieldName := destTypeField.name
      wrapField fieldName (
        if destTypeField.tag = some "-" then .ok (.structV dfs dvals)
        else
          match dvals[i]? with
          | none => .error .kindPanic
          | some destField =>
            if destTypeField.anonymous then do
              let nv ← recur (some source) (some destField) loose useSourceMemberList
              pure (.structV dfs (dvals.set i nv))
            else do
              let nilEmb ← valueIsContainedInNilEmbeddedType source fieldName
              if nilEmb then pure (.structV dfs dvals)
              else do
                let sourceField ← fieldByNameV source fieldName
                match sourceField with
                | none =>
                    if loose then pure (.structV dfs dvals)
                    else
                      match destField with
                      | .structV gfs gvals => do
                          let nv ← recur (some source) (some (.structV gfs gvals))
                                     loose useSourceMemberList
                          pure (.structV dfs (dvals.set i nv))
                      | _ => do
                          let sf1 ←
                            match source with
                            | .structV _ svals => oneLevelSearch svals fieldName
                            | _ => .error .kindPanic
                          let nv ← recur sf1 (some destField) loose useSourceMemberList
                          pure (.structV dfs (dvals.set i nv))
                | some sf => do
                    let nv ← recur (some sf) (some destField) loose useSourceMemberList
                    pure (.structV dfs (dvals.set i nv)))
  | _ => .error .kindPanic

/-- Embedding of the second revision's mapSourceField: find the first
destination field with the same declared name and delegate to
mapDestField at that index; panic when none matches. -/
def mapSourceField (recur : Rec) (source destVal : Val) (i : Nat)
    (loose useSourceMemberList : Bool) : Except MapError Val :=
  match source with
  | .structV sfs _ =>
    match sfs[i]? with
    | none => .error .kindPanic
    | some (sourceTypeField, _) =>
      wrapField sourceTypeField.name (
        let sourceFieldName := sourceTypeField.name
        match destVal with
        | .structV dfs _ =>
          match dfs.findIdx? (fun f => f.1.name = sourceFieldName) with
          | some q => mapDestField recur source destVal q loose useSourceMemberList
          | none => .error .noMatchingDestField
        | _ => .error .noMatchingDestField)
  | _ => .error .kindPanic

/-- Embedding of the second revision's mapFields. -/
def mapFields (recur : Rec) (sourceVal destVal : Val)
    (loose useSourceMemberList : Bool) : Except MapError Val :=
  match sourceVal, destVal with
  | .structV sfs svals, .structV dfs dvals =>
    if useSourceMemberList then
      (List.range sfs.length).foldlM
        (fun dv i => mapSourceField recur (.structV sfs svals) dv i loose useSourceMemberList)
        (.structV dfs dvals)
    else
      (List.range dfs.length).foldlM
        (fun dv i => mapDestField recur (.structV sfs svals) dv i loose useSourceMemberList)
        (.structV dfs dvals)
  | _, _ => .error .kindPanic

/-- Embedding of the second revision's verifyArrayTypesAreCompatible. -/
def verifyArrayTypesAreCompatible (recur : Rec) (sourceVal destVal : Val)
    (loose useSourceMemberList : Bool) : Except MapError Val :=
  match sourceVal with
  | .sliceV se _ =>
      recur (some (.sliceV se [zeroVal se])) (some (zeroVal (.ptrT (typeOf destVal))))
        loose useSourceMemberList
  | _ => .error .kindPanic

/-- Embedding of the second revision's mapSlice. -/
def mapSlice (recur : Rec) (sourceVal destVal : Val)
    (loose useSourceMemberList : Bool) : Except MapError Val :=
  match destVal with
  | .sliceV destElem delems =>
    match sourceVal with
    | .sliceV se selems => do
        let target ← selems.mapM
          (fun sv => recur (some sv) (some (zeroVal destElem)) loose useSourceMemberList)
        if selems.length = 0 then do
          let _ ← verifyArrayTypesAreCompatible recur (.sliceV se selems)
                    (.sliceV destElem delems) loose useSourceMemberList
          .ok (.sliceV destElem target)
        else .ok (.sliceV destElem target)
    | _ => .error .kindPanic
  | _ => .error .kindPanic

/-- Embedding of the second revision's mapValues dispatcher, with fuel;
the decision order is identical to the third revision's. -/
def mapValues : Nat → Value → Value → Bool → Bool → Except MapError Val
  | 0, _, _, _, _ => .error .outOfFuel
  | fuel + 1, sourceVal, destVal, loose, useSourceMemberList =>
    match sourceVal, destVal with
    | none, _ => .error .zeroValue
    | some _, none => .error .zeroValue
    | some sv, some dv =>
      match sv, dv with
      | .ptrV e inner, .structV dfs dvals =>
          mapValues fuel (some (inner.getD (zeroVal e))) (some (.structV dfs dvals))
            loose useSourceMemberList
      | sv, dv =>
        if GoType.beq (typeOf sv) (typeOf dv) then .ok sv
        else
          match sv, dv with
          | .structV a b, .structV c d =>
              mapFields (fun x y l u => mapValues fuel x y l u) (.structV a b) (.structV c d)
                loose useSourceMemberList
          | sv, .ptrV e dinner =>
              if valueIsNil sv then .ok (.ptrV e dinner)
              else do
                let inner ← mapValues fuel (some sv) (some (zeroVal e)) loose useSourceMemberList
                .ok (.ptrV e (some inner))
          | sv, .sliceV de dels =>
              mapSlice (fun x y l u => mapValues fuel x y l u) sv (.sliceV de dels)
                loose useSourceMemberList
          | sv, dv => convert sv (typeOf dv)

/-- Embedding of the second revision's MapWithOptions: strict mapping. -/
def MapWithOptions (fuel : Nat) (source dest : Val) (opt : MapOptions) : Except MapError Val :=
  match dest with
  | .ptrV _ inner => mapValues fuel (some source) inner false opt.UseSourceMemberList
  | _ => .error .destNotAddressable

/-- Embedding of the second revision's Map. -/
def Map (fuel : Nat) (source dest : Val) : Except MapError Val :=
  MapWithOptions fuel source dest ⟨false⟩

/-- Embedding of the second revision's MapLooseWithOptions: loose mapping. -/
def MapLooseWithOptions (fuel : Nat) (source dest : Val) (opt : MapOptions) : Except MapError Val :=
  match dest with
  | .ptrV _ inner => mapValues fuel (some source) inner true opt.UseSourceMemberList
  | _ => .error .destNotAddressable

/-- Embedding of the second revision's MapLoose. -/
def MapLoose (fuel : Nat) (source dest : Val) : Except MapError Val :=
  MapLooseWithOptions fuel source dest ⟨false⟩

end R2

/-- A plain (untagged, non-anonymous) string field declaration. -/
def sField (n : String) : FieldMeta × GoType := (⟨n, none, false⟩, .stringT)

/-- A string field declaration carrying an automapper tag. -/
def sFieldTag (n t : String) : FieldMeta × GoType := (⟨n, some t, false⟩, .stringT)

/-- A plain struct-typed field declaration. -/
def stField (n : String) (fs : List (FieldMeta × GoType)) : FieldMeta × GoType :=
  (⟨n, none, false⟩, .structT fs)

/-- Whether every field of a struct field list is non-anonymous (a flat
struct, with no embedded fields). -/
def allFlat (fs : List (FieldMeta × GoType)) : Bool :=
  fs.all (fun f => !f.1.anonymous)

/-- Access by declared name without promotion, used to state properties:
the value of the first field declared with the given name. -/
def getDirectFieldAux : List (FieldMeta × GoType) → List Val → String → Option Val
  | [], _, _ => none
  | _ :: _, [], _ => none
  | (m, _) :: fs, v :: vs, name =>
      if m.name = name then some v else getDirectFieldAux fs vs name

/-- Direct (non-promoted) field access by name on a struct value. -/
def getDirectField (v : Val) (name : String) : Option Val :=
  match v with
  | .structV fs vals => getDirectFieldAux fs vals name
  | _ => none

/-- The name mapDestField and mapSourceField look up on the opposite side:
the automapper tag when present, the declared name otherwise. -/
def destNameOf (meta : FieldMeta) : String :=
  match meta.tag with
  | some t => t
  | none => meta.name

/-- Whether a value is of struct kind (reflect Kind == Struct). -/
def isStructKindV : Val → Bool
  | .structV _ _ => true
  | _ => false

/-- The spec example destination type for MapFromSourceMap:
struct Foo, Bar string; Child struct Foo, Bar string. -/
def childSrcT : List (FieldMeta × GoType) := [sField "Foo"]

/-- Field list of the nested destination struct of the C1 example. -/
def childDestT : List (FieldMeta × GoType) := [sField "Foo", sField "Bar"]

/-- Field list of the top-level destination struct of the C1 example. -/
def destT1 : List (FieldMeta × GoType) := [sField "Foo", sField "Bar", stField "Child" childDestT]

/-- The C1 example source association. -/
def srcMap1 : List (String × Val) :=
  [("Foo", .strV "abc"), ("Child", .structV childSrcT [.strV "456"])]

/-- The C1 example pre-call destination value. -/
def destVal1 : Val :=
  .structV destT1 [.strV "", .strV "123", .structV childDestT [.strV "", .strV ""]]

/-- The C1 example expected post-call destination value. -/
def expected1 : Val :=
  .structV destT1 [.strV "abc", .strV "123", .structV childDestT [.strV "456", .strV ""]]


/-- Helper: mapping into the invalid zero Value always panics (the Type call
panics on any fuel except the model's exhaustion case). -/
theorem mapValues_none_dest (fuel : Nat) (sv : Value) (opts : R3.mapOptions) :
    ∃ e, R3.mapValues fuel sv none opts = .error e := by
  cases fuel with
  | zero => exact ⟨.outOfFuel, rfl⟩
  | succ f =>
    cases sv with
    | none => exact ⟨.zeroValue, rfl⟩
    | some v => exact ⟨.zeroValue, rfl⟩

/-- C2. Every entry point of the third revision rejects a non-pointer
destination with the Dest-must-be-a-pointer panic before any traversal, for
every source (and even with zero fuel, showing no traversal happens). -/
theorem entry_points_require_pointer_dest (fuel : Nat) (source dest : Val)
    (srcMap : List (String × Val)) (h : isPtrT (typeOf dest) = false) :
    R3.MapToDestination fuel source dest = .error .destNotAddressable
    ∧ R3.MapFromSource fuel source dest = .error .destNotAddressable
    ∧ R3.MapFromSourceMap fuel srcMap dest = .error .destNotAddressable := by
  cases dest <;>
    simp_all [R3.MapToDestination, R3.MapFromSource, R3.MapFromSourceMap, isPtrT, typeOf]

/-- Witness for C2 at a string destination. -/
theorem entry_points_require_pointer_dest_witness :
    isPtrT (typeOf (Val.strV "a")) = false
    ∧ R3.MapToDestination 1 (.intV 0) (.strV "a") = .error .destNotAddressable := by
  exact ⟨rfl, (entry_points_require_pointer_dest 1 (.intV 0) (.strV "a") [] rfl).1⟩

/-- C5. A field tagged "-" on the driving side is excluded entirely: both
mapDestField and mapSourceField return the destination unchanged for any
recursive engine, any source content and any options, and whole calls leave
the skipped destination field at its pre-call value. -/
theorem skip_tag_preserves_dest_field :
    (∀ (recur : R3.Rec) (source : Val) dfs dvals (i : Nat) meta fty opts,
       dfs[i]? = some (meta, fty) → meta.tag = some "-" →
       R3.mapDestField recur source (.structV dfs dvals) i opts = .ok (.structV dfs dvals))
    ∧ (∀ (recur : R3.Rec) (dest : Val) sfs svals (i : Nat) meta fty opts,
       sfs[i]? = some (meta, fty) → meta.tag = some "-" →
       R3.mapSourceField recur (.structV sfs svals) dest i opts = .ok dest)
    ∧ R3.MapToDestination 6
        (.ptrV (.structT [sField "Foo", sField "Bar"])
          (some (.structV [sField "Foo", sField "Bar"] [.strV "abc", .strV "zzz"])))
        (.ptrV (.structT [sField "Foo", sFieldTag "Bar" "-"])
          (some (.structV [sField "Foo", sFieldTag "Bar" "-"] [.strV "", .strV "old"])))
      = .ok (.structV [sField "Foo", sFieldTag "Bar" "-"] [.strV "abc", .strV "old"])
    ∧ R3.MapFromSource 6
        (.ptrV (.structT [sFieldTag "Foo" "-"])
          (some (.structV [sFieldTag "Foo" "-"] [.strV "abc"])))
        (.ptrV (.structT [sField "Bar"]) (some (.structV [sField "Bar"] [.strV "old"])))
      = .ok (.structV [sField "Bar"] [.strV "old"]) := by
  refine ⟨?_, ?_, rfl, rfl⟩
  · intro recur source dfs dvals i meta fty opts hi ht
    simp [R3.mapDestField, hi, ht]
  · intro recur dest sfs svals i meta fty opts hi ht
    simp [R3.mapSourceField, hi, ht]

/-- Witness for C5 applying the per-field parts at index 1 of the tagged
destination type and index 0 of the tagged source type. -/
theorem skip_tag_preserves_dest_field_witness :
    ([sField "Foo", sFieldTag "Bar" "-"][1]? = some (sFieldTag "Bar" "-")
     ∧ (sFieldTag "Bar" "-").1.tag = some "-")
    ∧ R3.mapDestField (fun x y o => R3.mapValues 3 x y o) (.strV "s")
        (.structV [sField "Foo", sFieldTag "Bar" "-"] [.strV "", .strV "old"]) 1 ⟨false⟩
      = .ok (.structV [sField "Foo", sFieldTag "Bar" "-"] [.strV "", .strV "old"])
    ∧ R3.mapSourceField (fun x y o => R3.mapValues 3 x y o)
        (.structV [sFieldTag "Foo" "-"] [.strV "abc"]) (.intV 7) 0 ⟨true⟩
      = .ok (.intV 7) := by
  refine ⟨⟨rfl, rfl⟩, ?_, ?_⟩
  · exact skip_tag_preserves_dest_field.1 _ _ _ _ 1 _ _ _ rfl rfl
  · exact skip_tag_preserves_dest_field.2.1 _ _ _ _ 0 _ _ _ rfl rfl

/-- C6. Rename tags resolve in both traversal directions, and the tagged
name takes precedence over the declared one: destination field Bar tagged
Foo receives source field Foo under MapToDestination (even when the source
also declares a field Bar); source field Foo tagged Bar is written to
destination field Bar under MapFromSource.  Quantified over the field
contents and any surplus fuel. -/
theorem rename_tag_resolves_both_directions :
    (∀ (recur : R3.Rec) (source : Val) (dfs : List (FieldMeta × GoType)) (dvals : List Val)
       (i : Nat) (meta : FieldMeta) (fty : GoType) (t : String) (dfv : Val)
       (opts : R3.mapOptions),
       dfs[i]? = some (meta, fty) → meta.tag = some t → ¬ t = "-" →
       meta.anonymous = false → dvals[i]? = some dfv →
       R3.mapDestField recur source (.structV dfs dvals) i opts
         = wrapField meta.name
             (R3.mapByFieldName recur source (.structV dfs dvals) opts t meta.name))
    ∧ (∀ (recur : R3.Rec) (dest : Val) (sfs : List (FieldMeta × GoType)) (svals : List Val)
       (i : Nat) (meta : FieldMeta) (fty : GoType) (t : String) (sv : Val)
       (opts : R3.mapOptions),
       sfs[i]? = some (meta, fty) → meta.tag = some t → ¬ t = "-" →
       meta.anonymous = false → svals[i]? = some sv →
       R3.mapSourceField recur (.structV sfs svals) dest i opts
         = wrapField meta.name
             (R3.mapByFieldName recur (.structV sfs svals) dest opts meta.name t))
    ∧ ∀ (c : Nat) (s x y : String),
    R3.MapToDestination (c + 3)
        (.ptrV (.structT [sField "Foo"]) (some (.structV [sField "Foo"] [.strV s])))
        (.ptrV (.structT [sFieldTag "Bar" "Foo"])
          (some (.structV [sFieldTag "Bar" "Foo"] [.strV ""])))
      = .ok (.structV [sFieldTag "Bar" "Foo"] [.strV s])
    ∧ R3.MapFromSource (c + 3)
        (.ptrV (.structT [sFieldTag "Foo" "Bar"])
          (some (.structV [sFieldTag "Foo" "Bar"] [.strV s])))
        (.ptrV (.structT [sField "Bar"]) (some (.structV [sField "Bar"] [.strV ""])))
      = .ok (.structV [sField "Bar"] [.strV s])
    ∧ R3.MapToDestination (c + 3)
        (.ptrV (.structT [sField "Bar", sField "Foo"])
          (some (.structV [sField "Bar", sField "Foo"] [.strV x, .strV y])))
        (.ptrV (.structT [sFieldTag "Bar" "Foo"])
          (some (.structV [sFieldTag "Bar" "Foo"] [.strV ""])))
      = .ok (.structV [sFieldTag "Bar" "Foo"] [.strV y]) := by
  refine ⟨?_, ?_, fun c s x y => ⟨rfl, rfl, rfl⟩⟩
  · intro recur source dfs dvals i meta fty t dfv opts hi hmt ht hanon hdv
    simp only [R3.mapDestField, hi, hmt, if_neg ht, hdv, hanon, Bool.false_eq_true,
      if_false]
  · intro recur dest sfs svals i meta fty t sv opts hi hmt ht hanon hsv
    simp only [R3.mapSourceField, hi, hmt, if_neg ht, hsv, hanon, Bool.false_eq_true,
      if_false]

/-- Witness for C6 applying both general parts at the concrete rename
fixtures. -/
theorem rename_tag_resolves_both_directions_witness :
    ([sFieldTag "Bar" "Foo"][0]? = some (sFieldTag "Bar" "Foo")
      ∧ (sFieldTag "Bar" "Foo").1.tag = some "Foo" ∧ ¬ "Foo" = "-"
      ∧ (sFieldTag "Bar" "Foo").1.anonymous = false)
    ∧ R3.mapDestField (fun x y o => R3.mapValues 2 x y o)
        (.structV [sField "Foo"] [.strV "abc"])
        (.structV [sFieldTag "Bar" "Foo"] [.strV ""]) 0 ⟨false⟩
      = wrapField "Bar"
          (R3.mapByFieldName (fun x y o => R3.mapValues 2 x y o)
            (.structV [sField "Foo"] [.strV "abc"])
            (.structV [sFieldTag "Bar" "Foo"] [.strV ""]) ⟨false⟩ "Foo" "Bar")
    ∧ R3.mapSourceField (fun x y o => R3.mapValues 2 x y o)
        (.structV [sFieldTag "Foo" "Bar"] [.strV "abc"]) (.structV [sField "Bar"] [.strV ""])
        0 ⟨true⟩
      = wrapField "Foo"
          (R3.mapByFieldName (fun x y o => R3.mapValues 2 x y o)
            (.structV [sFieldTag "Foo" "Bar"] [.strV "abc"])
            (.structV [sField "Bar"] [.strV ""]) ⟨true⟩ "Foo" "Bar") := by
  refine ⟨⟨rfl, rfl, by simp, rfl⟩, ?_, ?_⟩
  · exact rename_tag_resolves_both_directions.1 (fun x y o => R3.mapValues 2 x y o)
      (.structV [sField "Foo"] [.strV "abc"]) [sFieldTag "Bar" "Foo"] [.strV ""] 0
      (sFieldTag "Bar" "Foo").1 .stringT "Foo" (.strV "") ⟨false⟩ rfl rfl (by simp) rfl rfl
  · exact rename_tag_resolves_both_directions.2.1 (fun x y o => R3.mapValues 2 x y o)
      (.structV [sField "Bar"] [.strV ""]) [sFieldTag "Foo" "Bar"] [.strV "abc"] 0
      (sFieldTag "Foo" "Bar").1 .stringT "Bar" (.strV "abc") ⟨true⟩ rfl rfl (by simp) rfl rfl

/-- C7 counterexample. With a typed nil pointer source of some struct type
and a destination pointer of a different struct type that is already
populated, the dispatcher returns with the destination still populated: the
destination optional is NOT left absent, contradicting the claim that an
absent source always yields an absent destination. -/
theorem nil_source_present_dest_counterexample :
    R3.mapValues 5 (some (.ptrV (.structT [sField "A"]) none))
        (some (.ptrV (.structT [sField "B"]) (some (.structV [sField "B"] [.strV "x"])))) ⟨false⟩
      = .ok (.ptrV (.structT [sField "B"]) (some (.structV [sField "B"] [.strV "x"])))
    ∧ (Val.ptrV (.structT [sField "B"]) (some (.structV [sField "B"] [.strV "x"])))
        ≠ zeroVal (.ptrT (.structT [sField "B"])) := by
  refine ⟨rfl, ?_⟩
  intro h
  simp [zeroVal] at h

/-- C7 amended. When the destination is a pointer type (of a type distinct
from the source's): a nil source leaves the destination pointer unchanged
(hence absent exactly when it was absent before the call), and a non-nil
source makes the destination a newly allocated instance whose pointee is
the source recursively mapped into a fresh zero value of the element type
(the prior pointee is discarded). -/
theorem ptr_dest_nil_source_unchanged (fuel : Nat) (sv : Val) (e : GoType)
    (di : Option Val) (opts : R3.mapOptions)
    (hbeq : GoType.beq (typeOf sv) (.ptrT e) = false) :
    (valueIsNil sv = true →
       R3.mapValues (fuel + 1) (some sv) (some (.ptrV e di)) opts = .ok (.ptrV e di))
    ∧ (∀ w, valueIsNil sv = false →
       R3.mapValues fuel (some sv) (some (zeroVal e)) opts = .ok w →
       R3.mapValues (fuel + 1) (some sv) (some (.ptrV e di)) opts = .ok (.ptrV e (some w))) := by
  constructor
  · intro hnil
    cases sv <;> simp_all [R3.mapValues, typeOf, valueIsNil]
  · intro w hnil hmap
    cases sv <;> simp_all only [R3.mapValues, typeOf, valueIsNil] <;> rfl

/-- Witness for C7 at a concrete nil pointer source and populated pointer
destination, and at a concrete present source. -/
theorem ptr_dest_nil_source_unchanged_witness :
    GoType.beq (typeOf (Val.ptrV (.structT [sField "A"]) none)) (.ptrT (.structT [sField "B"])) = false
    ∧ valueIsNil (Val.ptrV (.structT [sField "A"]) none) = true
    ∧ R3.mapValues 5 (some (.ptrV (.structT [sField "A"]) none))
        (some (.ptrV (.structT [sField "B"]) (some (.structV [sField "B"] [.strV "x"])))) ⟨false⟩
      = .ok (.ptrV (.structT [sField "B"]) (some (.structV [sField "B"] [.strV "x"]))) := by
  refine ⟨rfl, rfl, ?_⟩
  exact (ptr_dest_nil_source_unchanged 4 (.ptrV (.structT [sField "A"]) none)
    (.structT [sField "B"]) (some (.structV [sField "B"] [.strV "x"])) ⟨false⟩ rfl).1 rfl

/-- C8. Destination-driven name fallback: (i) when the name is absent from
the source's top level and the destination target is a leaf, the first
nested struct field (in declaration order) containing the name supplies the
value; (ii) the search is exactly one level deep: a name nested two levels
down is not found and the field resolution panic (wrapped zero-Value panic)
is signalled; (iii) when the destination target is itself a struct, the
whole source is mapped as that nested aggregate's value.  Quantified over
field contents and surplus fuel. -/
theorem one_level_fallback_and_aggregate_target :
    (∀ (recur : R3.Rec) (sfs : List (FieldMeta × GoType)) (svals : List Val)
       (dfs : List (FieldMeta × GoType)) (dvals : List Val) (sName dName : String)
       (p : List Nat) (dfv : Val) (opts : R3.mapOptions),
       valueIsContainedInNilEmbeddedType (.structV sfs svals) sName = .ok false →
       fieldByNameV (.structV sfs svals) sName = .ok none →
       fieldPath dfs dName = some p →
       getByPath (.structV dfs dvals) p = .ok dfv →
       isStructKindV dfv = false →
       R3.mapByFieldName recur (.structV sfs svals) (.structV dfs dvals) opts sName dName
         = (do
             let sf1 ← oneLevelSearch svals sName
             let nv ← recur sf1 (some dfv) opts
             setByPath (.structV dfs dvals) p nv))
    ∧ (∀ (recur : R3.Rec) (sfs : List (FieldMeta × GoType)) (svals : List Val)
       (dfs : List (FieldMeta × GoType)) (dvals : List Val) (sName dName : String)
       (p : List Nat) (gfs : List (FieldMeta × GoType)) (gvals : List Val)
       (opts : R3.mapOptions),
       valueIsContainedInNilEmbeddedType (.structV sfs svals) sName = .ok false →
       fieldByNameV (.structV sfs svals) sName = .ok none →
       fieldPath dfs dName = some p →
       getByPath (.structV dfs dvals) p = .ok (.structV gfs gvals) →
       R3.mapByFieldName recur (.structV sfs svals) (.structV dfs dvals) opts sName dName
         = (do
             let nv ← recur (some (.structV sfs svals)) (some (.structV gfs gvals)) opts
             setByPath (.structV dfs dvals) p nv))
    ∧ ∀ (c : Nat) (x y : String),
    R3.MapToDestination (c + 4)
        (.ptrV (.structT [stField "A" [sField "Foo"], stField "B" [sField "Foo"]])
          (some (.structV [stField "A" [sField "Foo"], stField "B" [sField "Foo"]]
            [.structV [sField "Foo"] [.strV x], .structV [sField "Foo"] [.strV y]])))
        (.ptrV (.structT [sField "Foo"]) (some (.structV [sField "Foo"] [.strV ""])))
      = .ok (.structV [sField "Foo"] [.strV x])
    ∧ R3.MapToDestination (c + 4)
        (.ptrV (.structT [stField "A" [stField "Inner" [sField "Foo"]]])
          (some (.structV [stField "A" [stField "Inner" [sField "Foo"]]]
            [.structV [stField "Inner" [sField "Foo"]]
              [.structV [sField "Foo"] [.strV x]]])))
        (.ptrV (.structT [sField "Foo"]) (some (.structV [sField "Foo"] [.strV ""])))
      = .error (.fieldError "Foo" .zeroValue)
    ∧ R3.MapToDestination (c + 4)
        (.ptrV (.structT [sField "X"]) (some (.structV [sField "X"] [.strV x])))
        (.ptrV (.structT [stField "Child" [sField "X"]])
          (some (.structV [stField "Child" [sField "X"]] [.structV [sField "X"] [.strV ""]])))
      = .ok (.structV [stField "Child" [sField "X"]] [.structV [sField "X"] [.strV x]]) := by
  refine ⟨?_, ?_, fun c x y => ⟨rfl, rfl, rfl⟩⟩
  · intro recur sfs svals dfs dvals sName dName p dfv opts hnil hsf hdp hget hkind
    cases dfv
    case structV gfs gvals => simp [isStructKindV] at hkind
    all_goals
      simp only [R3.mapByFieldName, hnil, hsf, hdp, hget, Bind.bind, Except.bind,
        pure, Except.pure, Bool.false_eq_true, if_false]
  · intro recur sfs svals dfs dvals sName dName p gfs gvals opts hnil hsf hdp hget
    simp only [R3.mapByFieldName, hnil, hsf, hdp, hget, Bind.bind, Except.bind,
      pure, Except.pure, Bool.false_eq_true, if_false]

/-- Witness for C8 applying the one-level-fallback part at the first-match
fixture and the aggregate-target part at the nesting fixture. -/
theorem one_level_fallback_and_aggregate_target_witness :
    (valueIsContainedInNilEmbeddedType
        (.structV [stField "A" [sField "Foo"], stField "B" [sField "Foo"]]
          [.structV [sField "Foo"] [.strV "x"], .structV [sField "Foo"] [.strV "y"]]) "Foo"
      = .ok false
     ∧ fieldByNameV
        (.structV [stField "A" [sField "Foo"], stField "B" [sField "Foo"]]
          [.structV [sField "Foo"] [.strV "x"], .structV [sField "Foo"] [.strV "y"]]) "Foo"
      = .ok none
     ∧ fieldPath [sField "Foo"] "Foo" = some [0]
     ∧ getByPath (.structV [sField "Foo"] [.strV ""]) [0] = .ok (.strV "")
     ∧ isStructKindV (.strV "") = false)
    ∧ R3.mapByFieldName (fun x y o => R3.mapValues 2 x y o)
        (.structV [stField "A" [sField "Foo"], stField "B" [sField "Foo"]]
          [.structV [sField "Foo"] [.strV "x"], .structV [sField "Foo"] [.strV "y"]])
        (.structV [sField "Foo"] [.strV ""]) ⟨false⟩ "Foo" "Foo"
      = (do
          let sf1 ← oneLevelSearch
            [.structV [sField "Foo"] [.strV "x"], .structV [sField "Foo"] [.strV "y"]] "Foo"
          let nv ← R3.mapValues 2 sf1 (some (.strV "")) ⟨false⟩
          setByPath (.structV [sField "Foo"] [.strV ""]) [0] nv)
    ∧ R3.mapByFieldName (fun x y o => R3.mapValues 2 x y o)
        (.structV [sField "X"] [.strV "x"])
        (.structV [stField "Child" [sField "X"]] [.structV [sField "X"] [.strV ""]])
        ⟨false⟩ "Child" "Child"
      = (do
          let nv ← R3.mapValues 2 (some (.structV [sField "X"] [.strV "x"]))
            (some (.structV [sField "X"] [.strV ""])) ⟨false⟩
          setByPath (.structV [stField "Child" [sField "X"]]
            [.structV [sField "X"] [.strV ""]]) [0] nv) := by
  refine ⟨⟨rfl, rfl, rfl, rfl, rfl⟩, ?_, ?_⟩
  · exact one_level_fallback_and_aggregate_target.1 (fun x y o => R3.mapValues 2 x y o)
      [stField "A" [sField "Foo"], stField "B" [sField "Foo"]]
      [.structV [sField "Foo"] [.strV "x"], .structV [sField "Foo"] [.strV "y"]]
      [sField "Foo"] [.strV ""] "Foo" "Foo" [0] (.strV "") ⟨false⟩ rfl rfl rfl rfl rfl
  · exact one_level_fallback_and_aggregate_target.2.1 (fun x y o => R3.mapValues 2 x y o)
      [sField "X"] [.strV "x"] [stField "Child" [sField "X"]]
      [.structV [sField "X"] [.strV ""]] "Child" "Child" [0] [sField "X"] [.strV ""]
      ⟨false⟩ rfl rfl rfl rfl

/-- C9 counterexample. A destination field that strict mode resolves through
the one-level nested fallback (source nests Child.Foo, destination declares
Foo) is mapped by Map but left untouched by MapLoose: the two modes do not
map this resolvable field identically, contradicting the claim. -/
theorem loose_skips_fallback_counterexample :
    R2.Map 6
        (.ptrV (.structT [stField "Child" [sField "Foo"]])
          (some (.structV [stField "Child" [sField "Foo"]]
            [.structV [sField "Foo"] [.strV "x"]])))
        (.ptrV (.structT [sField "Foo"]) (some (.structV [sField "Foo"] [.strV ""])))
      = .ok (.structV [sField "Foo"] [.strV "x"])
    ∧ R2.MapLoose 6
        (.ptrV (.structT [stField "Child" [sField "Foo"]])
          (some (.structV [stField "Child" [sField "Foo"]]
            [.structV [sField "Foo"] [.strV "x"]])))
        (.ptrV (.structT [sField "Foo"]) (some (.structV [sField "Foo"] [.strV ""])))
      = .ok (.structV [sField "Foo"] [.strV ""])
    ∧ (Val.structV [sField "Foo"] [.strV "x"]) ≠ (Val.structV [sField "Foo"] [.strV ""]) := by
  refine ⟨rfl, rfl, ?_⟩
  intro h
  simp at h

/-- C9 amended. In destination-driven loose mode a destination field not
found by DIRECT lookup on the source is left untouched and the call
succeeds, without attempting the nested-aggregate or aggregate-target
fallbacks (which strict mode does attempt); a field unresolvable even after
the fallbacks signals the field resolution panic in strict mode but is left
untouched without error in loose mode; and a field resolved by direct
lookup is mapped identically in both modes.  Quantified over field contents
and surplus fuel. -/
theorem loose_mode_direct_lookup_only (c : Nat) (p s : String) :
    R2.MapLoose (c + 3)
        (.ptrV (.structT [stField "Child" [sField "Foo"]])
          (some (.structV [stField "Child" [sField "Foo"]]
            [.structV [sField "Foo"] [.strV s]])))
        (.ptrV (.structT [sField "Foo"]) (some (.structV [sField "Foo"] [.strV p])))
      = .ok (.structV [sField "Foo"] [.strV p])
    ∧ R2.Map (c + 3)
        (.ptrV (.structT [stField "Child" [sField "Foo"]])
          (some (.structV [stField "Child" [sField "Foo"]]
            [.structV [sField "Foo"] [.strV s]])))
        (.ptrV (.structT [sField "Foo"]) (some (.structV [sField "Foo"] [.strV p])))
      = .ok (.structV [sField "Foo"] [.strV s])
    ∧ R2.Map (c + 3)
        (.ptrV (.structT [sField "Bar", stField "N" [sField "Baz"]])
          (some (.structV [sField "Bar", stField "N" [sField "Baz"]]
            [.strV s, .structV [sField "Baz"] [.strV s]])))
        (.ptrV (.structT [sField "Foo"]) (some (.structV [sField "Foo"] [.strV p])))
      = .error (.fieldError "Foo" .zeroValue)
    ∧ R2.MapLoose (c + 3)
        (.ptrV (.structT [sField "Bar", stField "N" [sField "Baz"]])
          (some (.structV [sField "Bar", stField "N" [sField "Baz"]]
            [.strV s, .structV [sField "Baz"] [.strV s]])))
        (.ptrV (.structT [sField "Foo"]) (some (.structV [sField "Foo"] [.strV p])))
      = .ok (.structV [sField "Foo"] [.strV p])
    ∧ R2.Map (c + 3)
        (.ptrV (.structT [sField "Foo", sField "Other"])
          (some (.structV [sField "Foo", sField "Other"] [.strV s, .strV p])))
        (.ptrV (.structT [sField "Foo"]) (some (.structV [sField "Foo"] [.strV p])))
      = .ok (.structV [sField "Foo"] [.strV s])
    ∧ R2.MapLoose (c + 3)
        (.ptrV (.structT [sField "Foo", sField "Other"])
          (some (.structV [sField "Foo", sField "Other"] [.strV s, .strV p])))
        (.ptrV (.structT [sField "Foo"]) (some (.structV [sField "Foo"] [.strV p])))
      = .ok (.structV [sField "Foo"] [.strV s]) := by
  exact ⟨rfl, rfl, rfl, rfl, rfl, rfl⟩

/-- Helper for C4, innermost step: if mapping a zero source element into a
zero destination element fails, mapping the one-element probe slice into a
zero destination slice fails with the same error. -/
theorem empty_slice_probe_chain1 (g : Nat) (sE dE : GoType) (opts : R3.mapOptions)
    (e : MapError) (hbeq : GoType.beq sE dE = false)
    (h : R3.mapValues g (some (zeroVal sE)) (some (zeroVal dE)) opts = .error e) :
    R3.mapValues (g + 1) (some (.sliceV sE [zeroVal sE]))
      (some (.sliceV dE [])) opts = .error e := by
  simp [R3.mapValues, R3.mapSlice, typeOf, GoType.beq, hbeq, h,
    List.mapM, List.mapM.loop, Except.bind]
  rfl

/-- Helper for C4, middle step: the probe failure propagates through the
throwaway pointer destination the probe allocates. -/
theorem empty_slice_probe_chain2 (g : Nat) (sE dE : GoType) (opts : R3.mapOptions)
    (e : MapError)
    (h : R3.mapValues g (some (.sliceV sE [zeroVal sE]))
           (some (.sliceV dE [])) opts = .error e) :
    R3.mapValues (g + 1) (some (.sliceV sE [zeroVal sE]))
      (some (.ptrV (.sliceT dE) none)) opts = .error e := by
  simp [R3.mapValues, typeOf, GoType.beq, valueIsNil, zeroVal, h, Except.bind]
  rfl

/-- Helper for C4, outer step: an empty source slice of incompatible element
type triggers the probe and fails with the probe's error. -/
theorem empty_slice_probe_chain3 (g : Nat) (sE dE : GoType) (dels : List Val)
    (opts : R3.mapOptions) (e : MapError) (hbeq : GoType.beq sE dE = false)
    (h : R3.mapValues g (some (.sliceV sE [zeroVal sE]))
           (some (.ptrV (.sliceT dE) none)) opts = .error e) :
    R3.mapValues (g + 1) (some (.sliceV sE []))
      (some (.sliceV dE dels)) opts = .error e := by
  simp [R3.mapValues, R3.mapSlice, R3.verifyArrayTypesAreCompatible, typeOf,
    GoType.beq, hbeq, zeroVal, h, List.mapM, List.mapM.loop, Except.bind]
  rfl

/-- C4. An empty source slice with an element type that fails to map into
the destination's element type still fails: whatever error the element-level
mapping of zero values raises (with some fuel) is raised by the whole
empty-slice mapping (with three more fuel steps for the probe plumbing),
because the one-element probe is constructed and mapped.  Concretely an
empty string-slice into an int-slice signals the TypeIncompatible panic. -/
theorem empty_slice_incompatible_elem_fails :
    (∀ (fuel : Nat) (sE dE : GoType) (dels : List Val) (opts : R3.mapOptions) (e : MapError),
       GoType.beq sE dE = false →
       R3.mapValues fuel (some (zeroVal sE)) (some (zeroVal dE)) opts = .error e →
       R3.mapValues (fuel + 3) (some (.sliceV sE [])) (some (.sliceV dE dels)) opts = .error e)
    ∧ R3.mapValues 6 (some (.sliceV .stringT [])) (some (.sliceV .intT [])) ⟨false⟩
        = .error .typeIncompatible
    ∧ MapError.isTypeIncompatible .typeIncompatible = true := by
  refine ⟨?_, rfl, rfl⟩
  intro fuel sE dE dels opts e hbeq hel
  show R3.mapValues (fuel + 1 + 1 + 1) (some (.sliceV sE []))
      (some (.sliceV dE dels)) opts = .error e
  exact empty_slice_probe_chain3 (fuel + 1 + 1) sE dE dels opts e hbeq
    (empty_slice_probe_chain2 (fuel + 1) sE dE opts e
      (empty_slice_probe_chain1 fuel sE dE opts e hbeq hel))

/-- Witness for C4 at the string/int element pair with one unit of fuel. -/
theorem empty_slice_incompatible_elem_fails_witness :
    GoType.beq .stringT .intT = false
    ∧ R3.mapValues 1 (some (zeroVal .stringT)) (some (zeroVal .intT)) ⟨false⟩
        = .error .typeIncompatible
    ∧ R3.mapValues 4 (some (.sliceV .stringT [])) (some (.sliceV .intT [])) ⟨false⟩
        = .error .typeIncompatible := by
  refine ⟨rfl, rfl, ?_⟩
  exact empty_slice_incompatible_elem_fails.1 1 .stringT .intT [] ⟨false⟩ .typeIncompatible rfl rfl

/-- Helper: every path produced by one anonymous hop is nonempty. -/
theorem anonPathsWith_mem_ne_nil (rec0 : List (FieldMeta × GoType) → List (List Nat)) :
    ∀ (fs : List (FieldMeta × GoType)) (base : Nat) (p : List Nat),
      p ∈ anonPathsWith rec0 fs base → p ≠ [] := by
  intro fs
  induction fs with
  | nil => intro base p hp; simp [anonPathsWith] at hp
  | cons f rest ih =>
    intro base p hp
    obtain ⟨m, t⟩ := f
    rw [anonPathsWith] at hp
    rcases List.mem_append.mp hp with h1 | h2
    · split at h1
      · split at h1
        · rcases List.mem_map.mp h1 with ⟨q, _, rfl⟩
          simp
        · simp at h1
      · simp at h1
    · exact ih (base + 1) p h2

/-- Helper: every path of the promoted-field search is nonempty. -/
theorem pathsAt_mem_ne_nil (name : String) (d : Nat) (fs : List (FieldMeta × GoType))
    (p : List Nat) (hp : p ∈ pathsAt name d fs) : p ≠ [] := by
  cases d with
  | zero =>
    rw [pathsAt] at hp
    rcases List.mem_map.mp hp with ⟨i, _, rfl⟩
    simp
  | succ d =>
    rw [pathsAt] at hp
    exact anonPathsWith_mem_ne_nil _ fs 0 p hp

/-- Helper: a path found by the depth scan is nonempty. -/
theorem fieldPathFrom_ne_nil (fs : List (FieldMeta × GoType)) (name : String) :
    ∀ (b d : Nat) (p : List Nat), fieldPathFrom fs name b d = some p → p ≠ [] := by
  intro b
  induction b with
  | zero => intro d p h; simp [fieldPathFrom] at h
  | succ b ih =>
    intro d p h
    rw [fieldPathFrom] at h
    cases hQ : pathsAt name d fs with
    | nil => rw [hQ] at h; exact ih (d + 1) p h
    | cons q qs =>
      cases qs with
      | nil =>
        rw [hQ] at h
        simp at h
        exact h ▸ pathsAt_mem_ne_nil name d fs q (by rw [hQ]; exact List.mem_singleton_self q)
      | cons q2 qs2 => rw [hQ] at h; simp at h

/-- Helper: a resolved field path is nonempty. -/
theorem fieldPath_ne_nil (fs : List (FieldMeta × GoType)) (name : String) (p : List Nat)
    (h : fieldPath fs name = some p) : p ≠ [] :=
  fieldPathFrom_ne_nil fs name (fieldsSize fs + 1) 0 p h

/-- Helper: a successful Except bind factors through a successful first
component. -/
theorem exceptBind_ok {α β : Type} {x : Except MapError α} {f : α → Except MapError β}
    {b : β} (h : (x >>= f) = .ok b) : ∃ a, x = .ok a ∧ f a = .ok b := by
  cases x with
  | error e => exact absurd h (by simp [Bind.bind, Except.bind])
  | ok a => exact ⟨a, rfl, by simpa [Bind.bind, Except.bind] using h⟩

/-- Helper: a successful write along a nonempty path into a struct value
keeps the struct's field declarations. -/
theorem setByPath_structV_shape (fs : List (FieldMeta × GoType)) (vals : List Val)
    (i : Nat) (rest : List Nat) (nv w : Val)
    (h : setByPath (.structV fs vals) (i :: rest) nv = .ok w) :
    ∃ vals2, w = .structV fs vals2 := by
  cases hv : vals[i]? with
  | none => simp [setByPath, hv] at h
  | some x =>
    cases rest with
    | nil =>
      simp [setByPath, hv] at h
      exact ⟨vals.set i nv, h.symm⟩
    | cons r rs =>
      simp only [setByPath, hv] at h
      split at h
      · obtain ⟨a, hx, ha⟩ := exceptBind_ok h
        simp at ha
        exact ⟨_, ha.symm⟩
      · simp at h
      · obtain ⟨a, hx, ha⟩ := exceptBind_ok h
        simp at ha
        exact ⟨_, ha.symm⟩

/-- Helper: a flat field list yields no promoted paths at any positive
depth (the anonymous hop finds nothing to descend into). -/
theorem anonPathsWith_flat (rec0 : List (FieldMeta × GoType) → List (List Nat)) :
    ∀ (fs : List (FieldMeta × GoType)), allFlat fs = true →
      ∀ base, anonPathsWith rec0 fs base = [] := by
  intro fs
  induction fs with
  | nil => intro _ base; rw [anonPathsWith]
  | cons f rest ih =>
    intro hflat base
    obtain ⟨m, t⟩ := f
    simp [allFlat] at hflat
    rw [anonPathsWith, hflat.1]
    simp
    exact ih (by simp [allFlat]; exact hflat.2) (base + 1)

/-- Helper: the promoted-field search of a flat field list is empty at
every positive depth. -/
theorem pathsAt_flat_succ (name : String) (d : Nat) (fs : List (FieldMeta × GoType))
    (hflat : allFlat fs = true) : pathsAt name (d + 1) fs = [] := by
  rw [pathsAt]
  exact anonPathsWith_flat _ fs hflat 0

/-- Helper: the depth scan of a flat field list finds nothing at positive
starting depths. -/
theorem fieldPathFrom_flat_none (fs : List (FieldMeta × GoType)) (name : String)
    (hflat : allFlat fs = true) :
    ∀ (b d : Nat), 0 < d → fieldPathFrom fs name b d = none := by
  intro b
  induction b with
  | zero => intro d _; rw [fieldPathFrom]
  | succ b ih =>
    intro d hd
    rw [fieldPathFrom]
    cases d with
    | zero => exact absurd hd (by simp)
    | succ d2 =>
      rw [pathsAt_flat_succ name d2 fs hflat]
      exact ih (d2 + 2) (by omega)

/-- Helper: on a flat field list, FieldByName is the depth-zero direct
search with the uniqueness filter. -/
theorem fieldPath_flat_eq (fs : List (FieldMeta × GoType)) (name : String)
    (hflat : allFlat fs = true) :
    fieldPath fs name =
      match pathsAt name 0 fs with
      | [q] => some q
      | _ => none := by
  rw [fieldPath, fieldPathFrom]
  cases hQ : pathsAt name 0 fs with
  | nil => simpa using fieldPathFrom_flat_none fs name hflat (fieldsSize fs) 1 (by omega)
  | cons q qs =>
    cases qs with
    | nil => rfl
    | cons q2 qs2 => rfl

/-- Helper: membership in the direct index search names the field at that
index. -/
theorem directIdxs_mem (name : String) :
    ∀ (fs : List (FieldMeta × GoType)) (base i : Nat), i ∈ directIdxs name fs base →
      ∃ j meta fty, fs[j]? = some (meta, fty) ∧ meta.name = name ∧ i = base + j := by
  intro fs
  induction fs with
  | nil => intro base i hi; simp [directIdxs] at hi
  | cons f rest ih =>
    intro base i hi
    obtain ⟨m, t⟩ := f
    rw [directIdxs] at hi
    rcases List.mem_append.mp hi with h1 | h2
    · split at h1
      · simp at h1
        subst h1
        exact ⟨0, m, t, by simp, by assumption, by omega⟩
      · simp at h1
    · obtain ⟨j, meta, fty, hj, hn, hij⟩ := ih (base + 1) i h2
      exact ⟨j + 1, meta, fty, by simpa using hj, hn, by omega⟩

/-- Helper: on a flat field list, a resolved path is a single index whose
field bears the looked-up name. -/
theorem fieldPath_flat_index (fs : List (FieldMeta × GoType)) (name : String)
    (p : List Nat) (hflat : allFlat fs = true) (h : fieldPath fs name = some p) :
    ∃ i meta fty, p = [i] ∧ fs[i]? = some (meta, fty) ∧ meta.name = name := by
  rw [fieldPath_flat_eq fs name hflat] at h
  cases hQ : pathsAt name 0 fs with
  | nil => rw [hQ] at h; simp at h
  | cons q qs =>
    cases qs with
    | cons q2 qs2 => rw [hQ] at h; simp at h
    | nil =>
      rw [hQ] at h
      simp at h
      have hp : p ∈ pathsAt name 0 fs := by
        rw [hQ, h]
        exact List.mem_singleton_self p
      rw [pathsAt] at hp
      rcases List.mem_map.mp hp with ⟨i, hi, rfl⟩
      obtain ⟨j, meta, fty, hj, hn, hij⟩ := directIdxs_mem name fs 0 i hi
      exact ⟨i, meta, fty, rfl, by simpa [hij] using hj, hn⟩

/-- Helper: setting a field whose declared name differs from the looked-up
name leaves the direct lookup unchanged. -/
theorem getDirectFieldAux_set_ne (n : String) :
    ∀ (fs : List (FieldMeta × GoType)) (vals : List Val) (i : Nat) (nv : Val)
      (meta : FieldMeta) (fty : GoType),
      fs[i]? = some (meta, fty) → meta.name ≠ n →
      getDirectFieldAux fs (vals.set i nv) n = getDirectFieldAux fs vals n := by
  intro fs
  induction fs with
  | nil => intro vals i nv meta fty hi; simp at hi
  | cons f rest ih =>
    intro vals i nv meta fty hi hne
    obtain ⟨m, t⟩ := f
    cases vals with
    | nil => simp
    | cons v vs =>
      cases i with
      | zero =>
        simp at hi
        rw [List.set_cons_zero, getDirectFieldAux, getDirectFieldAux]
        rw [if_neg (by rw [hi.1]; exact hne)]
        rw [if_neg (by rw [hi.1]; exact hne)]
      | succ i2 =>
        simp at hi
        rw [List.set_cons_succ, getDirectFieldAux, getDirectFieldAux]
        by_cases hm : m.name = n
        · rw [if_pos hm, if_pos hm]
        · rw [if_neg hm, if_neg hm]
          exact ih vs i2 nv meta fty (by simpa using hi) hne

/-- Helper: a MapFromSourceMap step on a key absent from the destination's
field set panics. -/
theorem mapFromSourceMapEntry_unknown_key (fuel : Nat) (dfs : List (FieldMeta × GoType))
    (dvals : List Val) (k : String) (v : Val) (hk : fieldPath dfs k = none) :
    ∃ e, R3.mapFromSourceMapEntry fuel (some (.structV dfs dvals)) k v = .error e := by
  obtain ⟨e, he⟩ := mapValues_none_dest fuel (some v) ⟨true⟩
  exact ⟨e, by simp [R3.mapFromSourceMapEntry, hk, he, Bind.bind, Except.bind]⟩

/-- Helper: a successful MapFromSourceMap step on a struct destination keeps
the destination's field declarations. -/
theorem mapFromSourceMapEntry_shape (fuel : Nat) (dfs : List (FieldMeta × GoType))
    (dvals : List Val) (k : String) (v : Val) (w : Value)
    (h : R3.mapFromSourceMapEntry fuel (some (.structV dfs dvals)) k v = .ok w) :
    ∃ vals2, w = some (.structV dfs vals2) := by
  rw [R3.mapFromSourceMapEntry] at h
  cases hfp : fieldPath dfs k with
  | none =>
    rw [hfp] at h
    obtain ⟨e, he⟩ := mapValues_none_dest fuel (some v) ⟨true⟩
    rw [he] at h
    exact absurd h (by simp [Bind.bind, Except.bind])
  | some p =>
    rw [hfp] at h
    obtain ⟨fv, hg, h2⟩ := exceptBind_ok h
    obtain ⟨nv, hm, h3⟩ := exceptBind_ok h2
    obtain ⟨dv2, hs, h4⟩ := exceptBind_ok h3
    simp at h4
    obtain ⟨i, rest, rfl⟩ : ∃ i rest, p = i :: rest := by
      cases p with
      | nil => exact absurd rfl (fieldPath_ne_nil dfs k [] hfp)
      | cons i rest => exact ⟨i, rest, rfl⟩
    obtain ⟨vals2, hv2⟩ := setByPath_structV_shape dfs dvals i rest nv dv2 hs
    exact ⟨vals2, by rw [← h4, hv2]⟩

/-- Helper: with a key present somewhere in the association whose name is
not a destination field, the MapFromSourceMap fold never succeeds. -/
theorem mapFromSourceMapLoop_err (fuel : Nat) (dfs : List (FieldMeta × GoType)) :
    ∀ (src : List (String × Val)) (dvals : List Val),
      (∃ kv ∈ src, fieldPath dfs kv.1 = none) →
      ∀ r, List.foldlM (fun dvv kv => R3.mapFromSourceMapEntry fuel dvv kv.1 kv.2)
          (some (.structV dfs dvals) : Value) src ≠ .ok r := by
  intro src
  induction src with
  | nil => intro dvals hk r; simp at hk
  | cons kv0 rest ih =>
    intro dvals hk r h
    rw [List.foldlM_cons] at h
    rcases hk with ⟨kv, hmem, hnone⟩
    rcases List.mem_cons.mp hmem with rfl | hmem2
    · obtain ⟨e, he⟩ := mapFromSourceMapEntry_unknown_key fuel dfs dvals kv.1 kv.2 hnone
      rw [he] at h
      simp [Bind.bind, Except.bind] at h
    · cases hstep : R3.mapFromSourceMapEntry fuel (some (.structV dfs dvals)) kv0.1 kv0.2 with
      | error e => rw [hstep] at h; simp [Bind.bind, Except.bind] at h
      | ok w =>
        rw [hstep] at h
        obtain ⟨vals2, rfl⟩ := mapFromSourceMapEntry_shape fuel dfs dvals kv0.1 kv0.2 w hstep
        exact ih vals2 ⟨kv, hmem2, hnone⟩ r (by simpa [Bind.bind, Except.bind] using h)

/-- C10. A sourceMap key that names no destination field is never silently
ignored: the whole MapFromSourceMap call fails for every fuel, and the
concrete single unknown key panics with the zero-Value panic. -/
theorem unknown_key_not_ignored :
    (∀ (fuel : Nat) (src : List (String × Val)) (t : GoType)
       (dfs : List (FieldMeta × GoType)) (dvals : List Val) (r : Value),
       (∃ kv ∈ src, fieldPath dfs kv.1 = none) →
       R3.MapFromSourceMap fuel src (.ptrV t (some (.structV dfs dvals))) ≠ .ok r)
    ∧ R3.MapFromSourceMap 5 [("Nope", .strV "x")]
        (.ptrV (.structT [sField "Foo"]) (some (.structV [sField "Foo"] [.strV ""])))
      = .error .zeroValue
    ∧ MapError.isFieldResolution .zeroValue = true := by
  refine ⟨?_, rfl, rfl⟩
  intro fuel src t dfs dvals r hk
  rw [R3.MapFromSourceMap]
  exact mapFromSourceMapLoop_err fuel dfs src dvals hk r

/-- Witness for C10 at a concrete unknown key. -/
theorem unknown_key_not_ignored_witness :
    (∃ kv ∈ [("Nope", Val.strV "x")], fieldPath [sField "Foo"] kv.1 = none)
    ∧ R3.MapFromSourceMap 5 [("Nope", .strV "x")]
        (.ptrV (.structT [sField "Foo"]) (some (.structV [sField "Foo"] [.strV ""])))
      ≠ .ok (some (.structV [sField "Foo"] [.strV ""])) := by
  refine ⟨⟨("Nope", .strV "x"), by simp, rfl⟩, ?_⟩
  exact unknown_key_not_ignored.1 5 [("Nope", .strV "x")] (.structT [sField "Foo"])
    [sField "Foo"] [.strV ""] (some (.structV [sField "Foo"] [.strV ""]))
    ⟨("Nope", .strV "x"), by simp, rfl⟩

/-- Helper: on a flat destination, a successful MapFromSourceMap step on key
k leaves the direct lookup of every other name unchanged. -/
theorem mapFromSourceMapEntry_preserves (fuel : Nat) (dfs : List (FieldMeta × GoType))
    (dvals : List Val) (k n : String) (v : Val) (w : Value)
    (hflat : allFlat dfs = true) (hk : k ≠ n)
    (h : R3.mapFromSourceMapEntry fuel (some (.structV dfs dvals)) k v = .ok w) :
    ∃ vals2, w = some (.structV dfs vals2) ∧
      getDirectFieldAux dfs vals2 n = getDirectFieldAux dfs dvals n := by
  rw [R3.mapFromSourceMapEntry] at h
  cases hfp : fieldPath dfs k with
  | none =>
    rw [hfp] at h
    obtain ⟨e, he⟩ := mapValues_none_dest fuel (some v) ⟨true⟩
    rw [he] at h
    exact absurd h (by simp [Bind.bind, Except.bind])
  | some p =>
    rw [hfp] at h
    obtain ⟨i, meta, fty, rfl, hif, hname⟩ := fieldPath_flat_index dfs k p hflat hfp
    obtain ⟨fv, hg, h2⟩ := exceptBind_ok h
    obtain ⟨nv, hm, h3⟩ := exceptBind_ok h2
    obtain ⟨dv2, hs, h4⟩ := exceptBind_ok h3
    simp at h4
    cases hvi : dvals[i]? with
    | none => simp [setByPath, hvi] at hs
    | some x =>
      have hdv2 : dv2 = Val.structV dfs (dvals.set i nv) := by
        simp [setByPath, hvi] at hs
        exact hs.symm
      refine ⟨dvals.set i nv, by rw [← h4, hdv2], ?_⟩
      exact getDirectFieldAux_set_ne n dfs dvals i nv meta fty hif (by rw [hname]; exact hk)

/-- Helper: on a flat destination, the MapFromSourceMap fold over keys all
distinct from n leaves the direct lookup of n unchanged when it succeeds,
and keeps the destination's field declarations. -/
theorem mapFromSourceMapLoop_preserves (fuel : Nat) (dfs : List (FieldMeta × GoType))
    (n : String) (hflat : allFlat dfs = true) :
    ∀ (src : List (String × Val)) (dvals : List Val) (r : Value),
      (∀ kv ∈ src, kv.1 ≠ n) →
      List.foldlM (fun dvv kv => R3.mapFromSourceMapEntry fuel dvv kv.1 kv.2)
        (some (.structV dfs dvals) : Value) src = .ok r →
      ∃ vals2, r = some (.structV dfs vals2) ∧
        getDirectFieldAux dfs vals2 n = getDirectFieldAux dfs dvals n := by
  intro src
  induction src with
  | nil =>
    intro dvals r _ h
    simp [pure, Except.pure] at h
    exact ⟨dvals, h.symm, rfl⟩
  | cons kv0 rest ih =>
    intro dvals r hkeys h
    rw [List.foldlM_cons] at h
    obtain ⟨w, hstep, h2⟩ := exceptBind_ok h
    obtain ⟨vals2, rfl, hpres⟩ := mapFromSourceMapEntry_preserves fuel dfs dvals kv0.1 n
      kv0.2 w hflat (hkeys kv0 (List.mem_cons_self kv0 rest)) hstep
    obtain ⟨vals3, rfl, hpres2⟩ := ih vals2 r
      (fun kv hm => hkeys kv (List.mem_cons_of_mem kv0 hm)) h2
    exact ⟨vals3, rfl, hpres2.trans hpres⟩

/-- C1. MapFromSourceMap is a merge/patch: on a flat struct destination,
every destination field whose name is absent from the source association
keeps its pre-call value whenever the call succeeds (and the field
declarations are untouched); and on the spec's concrete example the call
maps the mentioned keys recursively while preserving Bar at "123" and
Child.Bar at "". -/
theorem mapFromSourceMap_merge_patch :
    (∀ (fuel : Nat) (t : GoType) (dfs : List (FieldMeta × GoType)) (dvals : List Val)
       (src : List (String × Val)) (n : String) (r : Value),
       allFlat dfs = true → (∀ kv ∈ src, kv.1 ≠ n) →
       R3.MapFromSourceMap fuel src (.ptrV t (some (.structV dfs dvals))) = .ok r →
       ∃ vals2, r = some (.structV dfs vals2) ∧
         getDirectField (.structV dfs vals2) n = getDirectField (.structV dfs dvals) n)
    ∧ R3.MapFromSourceMap 6 srcMap1 (.ptrV (.structT destT1) (some destVal1))
        = .ok (some expected1) := by
  refine ⟨?_, rfl⟩
  intro fuel t dfs dvals src n r hflat hkeys h
  rw [R3.MapFromSourceMap] at h
  obtain ⟨vals2, rfl, hp⟩ := mapFromSourceMapLoop_preserves fuel dfs n hflat src dvals r hkeys h
  exact ⟨vals2, rfl, by simpa [getDirectField] using hp⟩

/-- Witness for C1: the example destination is flat, the example keys avoid
the name Bar, and the call preserves Bar's pre-call value "123". -/
theorem mapFromSourceMap_merge_patch_witness :
    allFlat destT1 = true
    ∧ (∀ kv ∈ srcMap1, kv.1 ≠ "Bar")
    ∧ (∃ vals2, (some expected1 : Value) = some (.structV destT1 vals2) ∧
        getDirectField (.structV destT1 vals2) "Bar"
          = getDirectField (.structV destT1
              [.strV "", .strV "123", .structV childDestT [.strV "", .strV ""]]) "Bar") := by
  refine ⟨rfl, ?_, ?_⟩
  · intro kv hkv
    rcases List.mem_cons.mp hkv with rfl | hkv2
    · simp
    · rcases List.mem_cons.mp hkv2 with rfl | hkv3
      · simp
      · simp at hkv3
  · exact mapFromSourceMap_merge_patch.1 6 (.structT destT1) destT1
      [.strV "", .strV "123", .structV childDestT [.strV "", .strV ""]]
      srcMap1 "Bar" (some expected1) rfl
      (by
        intro kv hkv
        rcases List.mem_cons.mp hkv with rfl | hkv2
        · simp
        · rcases List.mem_cons.mp hkv2 with rfl | hkv3
          · simp
          · simp at hkv3)
      rfl

/-- C3. In source-driven traversal, a non-skipped, non-anonymous source
field whose lookup name (declared name, or tag when renamed) names no
destination field makes mapSourceField fail with the zero-Value panic
wrapped in the field's name — the FieldResolution signal — rather than
succeed; and the concrete spec example (source Foo into an empty struct)
makes the whole MapFromSource call signal it. -/
theorem mapFromSource_unresolved_field_fails :
    (∀ (fuel : Nat) (sfs : List (FieldMeta × GoType)) (svals : List Val)
       (dfs : List (FieldMeta × GoType)) (dvals : List Val) (i : Nat)
       (meta : FieldMeta) (fty : GoType) (sv sf : Val) (opts : R3.mapOptions),
       sfs[i]? = some (meta, fty) → meta.anonymous = false → meta.tag ≠ some "-" →
       svals[i]? = some sv →
       valueIsContainedInNilEmbeddedType (.structV sfs svals) meta.name = .ok false →
       fieldByNameV (.structV sfs svals) meta.name = .ok (some sf) →
       fieldPath dfs (destNameOf meta) = none →
       R3.mapSourceField (fun x y o => R3.mapValues (fuel + 1) x y o)
         (.structV sfs svals) (.structV dfs dvals) i opts
       = .error (.fieldError meta.name .zeroValue))
    ∧ R3.MapFromSource 5
        (.ptrV (.structT [sField "Foo"]) (some (.structV [sField "Foo"] [.strV "abc"])))
        (.ptrV (.structT []) (some (.structV [] [])))
      = .error (.fieldError "Foo" .zeroValue)
    ∧ MapError.isFieldResolution (.fieldError "Foo" .zeroValue) = true := by
  refine ⟨?_, rfl, rfl⟩
  intro fuel sfs svals dfs dvals i meta fty sv sf opts hi hanon htag hsv hnil hsf hdest
  have hzero : R3.mapValues (fuel + 1) (some sf) none opts = .error .zeroValue := rfl
  cases hmt : meta.tag with
  | none =>
    simp only [destNameOf, hmt] at hdest
    simp only [R3.mapSourceField, hi, hmt, hanon, hsv, R3.mapByFieldName, hdest, hnil,
      hsf, wrapField, hzero, Bind.bind, Except.bind, pure, Except.pure,
      Bool.false_eq_true, if_false]
  | some t =>
    have ht : ¬ t = "-" := fun hEq => htag (by rw [hmt, hEq])
    simp only [destNameOf, hmt] at hdest
    simp only [R3.mapSourceField, hi, hmt, hanon, hsv, R3.mapByFieldName, hdest, hnil,
      hsf, wrapField, hzero, Bind.bind, Except.bind, pure, Except.pure,
      Bool.false_eq_true, if_false, if_neg ht]

/-- Witness for C3 at the spec example: one source field Foo, empty
destination struct. -/
theorem mapFromSource_unresolved_field_fails_witness :
    ([sField "Foo"][0]? = some (sField "Foo"))
    ∧ ((sField "Foo").1.anonymous = false)
    ∧ ¬ ((sField "Foo").1.tag = some "-")
    ∧ ([Val.strV "abc"][0]? = some (.strV "abc"))
    ∧ valueIsContainedInNilEmbeddedType (.structV [sField "Foo"] [.strV "abc"]) "Foo" = .ok false
    ∧ fieldByNameV (.structV [sField "Foo"] [.strV "abc"]) "Foo" = .ok (some (.strV "abc"))
    ∧ fieldPath ([] : List (FieldMeta × GoType)) (destNameOf (sField "Foo").1) = none
    ∧ R3.mapSourceField (fun x y o => R3.mapValues (4 + 1) x y o)
        (.structV [sField "Foo"] [.strV "abc"]) (.structV [] []) 0 ⟨true⟩
      = .error (.fieldError "Foo" .zeroValue) := by
  refine ⟨rfl, rfl, by simp [sField], rfl, rfl, rfl, rfl, ?_⟩
  exact mapFromSource_unresolved_field_fails.1 4 [sField "Foo"] [.strV "abc"] [] [] 0
    (sField "Foo").1 .stringT (.strV "abc") (.strV "abc") ⟨true⟩ rfl rfl
    (by simp [sField]) rfl rfl rfl rfl

